import Mathlib

set_option maxHeartbeats 1000000
set_option linter.unusedVariables false

/-!
Verification of the redux core: a shallow embedding of the store
(`createStore`), the reducer composer (`combineReducers`) and the
middleware pipeline (`applyMiddleware` / `compose`), with theorems about
their behaviour.

Conventions of the embedding:
* the JS value `undefined` is `Option.none`; a JS function that may return
  `undefined` returns an `Option`;
* a JS plain object used as a state tree is an association list
  `List (String × V)` (JS object keys are unique, lookup takes the first
  binding);
* a thrown JS error is an `Except.error` carrying a `ReduxError`;
* reference identity of immutable values is equality of the modelled
  values; the listener arrays, which are mutated in place in JS, are
  modelled by an explicit heap of arrays with array references as indices,
  so aliasing (`nextListeners === currentListeners`) is observable.
-/

namespace Redux

/-- An action record; the core only ever reads its `type` field. -/
structure Action where
  type : String
  deriving DecidableEq, Repr

/-- The reserved initialization action type (`ActionTypes.INIT`). -/
def ActionTypes.INIT : String := "@@redux/INIT"

/-- The error taxonomy of the spec; each carries the source message. -/
inductive ReduxError where
  | configurationError (msg : String)
  | validationError (msg : String)
  | invalidOperationError (msg : String)
  deriving DecidableEq, Repr

/-- A sub-reducer over sub-state values of type `V`; `none` in the result
models returning `undefined`. -/
abbrev Reducer (V : Type) := Option V → Action → Option V

/-- A value bound to a key in the object handed to `combineReducers`:
`undefined`, a function, or some other non-callable value. -/
inductive JSEntry (V : Type) where
  | undef
  | fn (r : Reducer V)
  | nonCallable

/-- The filtering loop of `combineReducers`: keep exactly the entries
whose value is a function (`typeof reducers[key] === 'function'`). -/
def finalReducersOf {V : Type} (reducers : List (String × JSEntry V)) :
    List (String × Reducer V) :=
  reducers.filterMap fun kv =>
    match kv.2 with
    | .fn r => some (kv.1, r)
    | _ => none

/-- The advisory pass of `combineReducers`: outside production, warn for
each key whose value is `undefined` (`typeof reducers[key] === 'undefined'`). -/
def combineWarnings {V : Type} (production : Bool)
    (reducers : List (String × JSEntry V)) : List String :=
  if production then []
  else reducers.filterMap fun kv =>
    match kv.2 with
    | .undef => some ("No reducer provided for key " ++ kv.1)
    | _ => none

/-- `assertReducerSanity`: probe each surviving reducer with the reserved
init action and then with a fresh unknown action type `probe`; the first
`undefined` result yields the captured error (the JS `forEach` aborts on
the first throw). -/
def assertReducerSanity {V : Type} (probe : String) :
    List (String × Reducer V) → Option ReduxError
  | [] => none
  | (key, r) :: rest =>
    if (r none ⟨ActionTypes.INIT⟩).isNone then
      some (.configurationError
        ("Reducer " ++ key ++ " returned undefined during initialization."))
    else if (r none ⟨probe⟩).isNone then
      some (.configurationError
        ("Reducer " ++ key ++ " returned undefined when probed with a random type."))
    else assertReducerSanity probe rest

/-- The per-key loop of `combination`: fold over the surviving reducers,
accumulating the next state object and the `hasChanged` flag (identity
comparison `nextStateForKey !== previousStateForKey`). -/
def combinationGo {V : Type} [DecidableEq V]
    (state : List (String × V)) (action : Action) :
    List (String × Reducer V) → List (String × V) → Bool →
    Except ReduxError (List (String × V) × Bool)
  | [], acc, changed => .ok (acc, changed)
  | (key, r) :: rest, acc, changed =>
    let previousStateForKey := state.lookup key
    match r previousStateForKey action with
    | none => .error (.configurationError
        ("Given action " ++ action.type ++ ", reducer " ++ key ++ " returned undefined."))
    | some nextStateForKey =>
      combinationGo state action rest (acc ++ [(key, nextStateForKey)])
        (changed || decide (some nextStateForKey ≠ previousStateForKey))

/-- The composed reducer `combination`: re-raise a captured sanity error
on every call, otherwise run the per-key loop and return the fresh object
when some key changed, the original `state` otherwise. -/
def combination {V : Type} [DecidableEq V] (sanityError : Option ReduxError)
    (finalReducers : List (String × Reducer V))
    (state : List (String × V)) (action : Action) :
    Except ReduxError (List (String × V)) :=
  match sanityError with
  | some e => .error e
  | none =>
    match combinationGo state action finalReducers [] false with
    | .error e => .error e
    | .ok (nextState, hasChanged) => .ok (if hasChanged then nextState else state)

/-- `combineReducers`: filter to callable entries, run the sanity check
once (capturing, not raising), and return the composed reducer. `probe`
is the per-composition random unknown action type. -/
def combineReducers {V : Type} [DecidableEq V] (probe : String)
    (reducers : List (String × JSEntry V))
    (state : List (String × V)) (action : Action) :
    Except ReduxError (List (String × V)) :=
  combination (assertReducerSanity probe (finalReducersOf reducers))
    (finalReducersOf reducers) state action

/-- C1: if the composition-time sanity check captured a failure, then every
call of the composed reducer — for any state and any action — raises that
same captured error; it is never dropped and never cleared by retrying. -/
theorem combineReducers_sanity_failure_always_raises {V : Type} [DecidableEq V]
    (probe : String) (reducers : List (String × JSEntry V)) (e : ReduxError)
    (h : assertReducerSanity probe (finalReducersOf reducers) = some e)
    (state : List (String × V)) (action : Action) :
    combineReducers probe reducers state action = .error e := by
  simp [combineReducers, combination, h]

/-- Witness for C1: a reducer under key `bad` that returns undefined for the
reserved init action makes an arbitrary call of the composed reducer raise
the captured configuration error. -/
theorem combineReducers_sanity_failure_always_raises_witness :
    combineReducers (V := Int) "@@redux/PROBE_UNKNOWN_ACTION_x"
      [("bad", JSEntry.fn fun _ _ => none)] [("bad", 0)] ⟨"SOME_ACTION"⟩ =
      .error (.configurationError
        "Reducer bad returned undefined during initialization.") :=
  combineReducers_sanity_failure_always_raises
    "@@redux/PROBE_UNKNOWN_ACTION_x" [("bad", JSEntry.fn fun _ _ => none)] _
    rfl [("bad", 0)] ⟨"SOME_ACTION"⟩

/-- The relation tying each surviving entry to the (defined) result its
reducer computes for the given state and action. -/
def ResultsFor {V : Type} (state : List (String × V)) (action : Action)
    (p : String × Reducer V) (nv : String × V) : Prop :=
  p.1 = nv.1 ∧ p.2 (state.lookup p.1) action = some nv.2

theorem bool_or_not_and (c b1 b2 : Bool) :
    ((c || !b1) || !b2) = (c || !(b1 && b2)) := by
  cases c <;> cases b1 <;> cases b2 <;> rfl

/-- Characterization of the per-key loop when every reducer returns a
defined result: it produces the accumulated results and the disjunction
of the per-key identity checks. -/
theorem combinationGo_forall2 {V : Type} [DecidableEq V]
    (state : List (String × V)) (action : Action)
    {rs : List (String × Reducer V)} {nexts : List (String × V)}
    (h : List.Forall₂ (ResultsFor state action) rs nexts) :
    ∀ acc changed, combinationGo state action rs acc changed =
      .ok (acc ++ nexts,
        changed || !(nexts.all fun nv => decide (state.lookup nv.1 = some nv.2))) := by
  induction h with
  | nil => intro acc changed; simp [combinationGo]
  | @cons a b l1 l2 hab _ ih =>
    intro acc changed
    obtain ⟨h1, h2⟩ := hab
    have hd : decide (some b.2 ≠ state.lookup a.1)
        = !(decide (state.lookup b.1 = some b.2)) := by
      rw [h1]; simp [Ne, eq_comm]
    calc combinationGo state action (a :: l1) acc changed
        = combinationGo state action l1 (acc ++ [(a.1, b.2)])
            (changed || decide (some b.2 ≠ state.lookup a.1)) := by
          simp [combinationGo, h2]
      _ = .ok (acc ++ [(a.1, b.2)] ++ l2,
            (changed || decide (some b.2 ≠ state.lookup a.1)) ||
              !(l2.all fun nv => decide (state.lookup nv.1 = some nv.2))) := ih _ _
      _ = .ok (acc ++ b :: l2,
            changed || !((b :: l2).all fun nv => decide (state.lookup nv.1 = some nv.2))) := by
          rw [hd, bool_or_not_and, h1]
          simp

/-- A `ResultsFor` chain pairs keys one for one. -/
theorem forall2_keys_eq {V : Type} (state : List (String × V)) (action : Action)
    {rs : List (String × Reducer V)} {nexts : List (String × V)}
    (h : List.Forall₂ (ResultsFor state action) rs nexts) :
    nexts.map Prod.fst = rs.map Prod.fst := by
  induction h with
  | nil => rfl
  | @cons a b l1 l2 hab _ ih => simp [ih, hab.1.symm]

/-- C2: with no captured sanity failure and every surviving reducer
returning a defined result, the composed reducer returns the original
state object itself when every key's result is identical to its previous
sub-state, and otherwise the newly built object holding every surviving
key's result; the change check is per-key identity. -/
theorem combineReducers_referential_stability {V : Type} [DecidableEq V]
    (probe : String) (reducers : List (String × JSEntry V))
    (state : List (String × V)) (action : Action) (nexts : List (String × V))
    (hsane : assertReducerSanity probe (finalReducersOf reducers) = none)
    (hres : List.Forall₂ (ResultsFor state action) (finalReducersOf reducers) nexts) :
    combineReducers probe reducers state action =
      .ok (if nexts.all (fun nv => decide (state.lookup nv.1 = some nv.2))
        then state else nexts) := by
  have hgo := combinationGo_forall2 state action hres [] false
  simp only [List.nil_append, Bool.false_or] at hgo
  simp only [combineReducers, combination, hsane, hgo]
  cases h : (nexts.all fun nv => decide (state.lookup nv.1 = some nv.2)) <;> simp

/-- Witness for C2: the composed reducer for `a ↦ (s = 0, _) ↦ s` applied
to the state with `a = 1` and an arbitrary action returns the original
state object (no key changed by identity). -/
theorem combineReducers_referential_stability_witness :
    combineReducers (V := Int) "@@redux/PROBE_UNKNOWN_ACTION_y"
      [("a", JSEntry.fn fun s _ => match s with | some v => some v | none => some 0)]
      [("a", 1)] ⟨"SOME_OTHER_ACTION"⟩ = .ok [("a", 1)] := by
  have h := combineReducers_referential_stability (V := Int)
    "@@redux/PROBE_UNKNOWN_ACTION_y"
    [("a", JSEntry.fn fun s _ => match s with | some v => some v | none => some 0)]
    [("a", 1)] ⟨"SOME_OTHER_ACTION"⟩ [("a", 1)] rfl
    (List.Forall₂.cons ⟨rfl, rfl⟩ List.Forall₂.nil)
  simpa using h

/-- C10: with no sanity failure and all results defined, when at least one
key changed by identity the returned object carries exactly the surviving
reducer keys (extra input keys are dropped); when no key changed the
original input object, extra keys included, is returned. -/
theorem combineReducers_result_key_set {V : Type} [DecidableEq V]
    (probe : String) (reducers : List (String × JSEntry V))
    (state : List (String × V)) (action : Action) (nexts : List (String × V))
    (hsane : assertReducerSanity probe (finalReducersOf reducers) = none)
    (hres : List.Forall₂ (ResultsFor state action) (finalReducersOf reducers) nexts) :
    ((nexts.all fun nv => decide (state.lookup nv.1 = some nv.2)) = false →
      combineReducers probe reducers state action = .ok nexts ∧
      nexts.map Prod.fst = (finalReducersOf reducers).map Prod.fst) ∧
    ((nexts.all fun nv => decide (state.lookup nv.1 = some nv.2)) = true →
      combineReducers probe reducers state action = .ok state) := by
  have hgo := combinationGo_forall2 state action hres [] false
  simp only [List.nil_append, Bool.false_or] at hgo
  constructor
  · intro hch
    refine ⟨?_, forall2_keys_eq state action hres⟩
    simp [combineReducers, combination, hsane, hgo, hch]
  · intro hch
    simp [combineReducers, combination, hsane, hgo, hch]

/-- Witness for C10: a changing sub-reducer makes the composed reducer
return an object holding exactly the surviving key `a`, dropping the
extra input key `extra`. -/
theorem combineReducers_result_key_set_witness :
    combineReducers (V := Int) "@@redux/PROBE_UNKNOWN_ACTION_z"
      [("a", JSEntry.fn fun _ _ => some 2)]
      [("a", 1), ("extra", 5)] ⟨"BUMP"⟩ = .ok [("a", 2)] ∧
    [("a", (2 : Int))].map Prod.fst =
      (finalReducersOf (V := Int) [("a", JSEntry.fn fun _ _ => some 2)]).map Prod.fst := by
  have h := combineReducers_result_key_set (V := Int)
    "@@redux/PROBE_UNKNOWN_ACTION_z"
    [("a", JSEntry.fn fun _ _ => some 2)]
    [("a", 1), ("extra", 5)] ⟨"BUMP"⟩ [("a", 2)] rfl
    (List.Forall₂.cons ⟨rfl, rfl⟩ List.Forall₂.nil)
  exact h.1 (by decide)

/-- Whether an entry value is a function. -/
def JSEntry.isCallable {V : Type} : JSEntry V → Bool
  | .fn _ => true
  | _ => false

/-- Whether an entry value is `undefined`. -/
def JSEntry.isUndef {V : Type} : JSEntry V → Bool
  | .undef => true
  | _ => false

theorem finalReducersOf_keys {V : Type} (reducers : List (String × JSEntry V)) :
    (finalReducersOf reducers).map Prod.fst =
      (reducers.filter fun kv => kv.2.isCallable).map Prod.fst := by
  induction reducers with
  | nil => rfl
  | cons kv rest ih =>
    obtain ⟨k, e⟩ := kv
    cases e <;>
      simpa [finalReducersOf, List.filterMap_cons, JSEntry.isCallable] using ih

theorem combineWarnings_dev {V : Type} (reducers : List (String × JSEntry V)) :
    combineWarnings false reducers =
      (reducers.filter fun kv => kv.2.isUndef).map
        (fun kv => "No reducer provided for key " ++ kv.1) := by
  induction reducers with
  | nil => rfl
  | cons kv rest ih =>
    obtain ⟨k, e⟩ := kv
    cases e <;>
      simp [combineWarnings, List.filterMap_cons, JSEntry.isUndef] at ih ⊢ <;> exact ih

/-- C9 counterexample: the key `k` carries a present but non-callable
value; it is excluded from the surviving reducers, yet even in a
non-production build no advisory is recorded for it — refuting the claim
that each such entry causes an advisory. -/
theorem combineReducers_noncallable_silent_counterexample :
    finalReducersOf (V := Int) [("k", JSEntry.nonCallable)] = [] ∧
    combineWarnings (V := Int) false [("k", JSEntry.nonCallable)] = [] := by
  constructor <;> rfl

/-- C9 (amended): entries that are not callable are excluded from the
composed reducer; in non-production builds exactly the entries whose
value is `undefined` each cause a one-time advisory (present but
non-callable entries are excluded silently); in production no advisory
is recorded. -/
theorem combineReducers_filtering_and_advisories {V : Type}
    (reducers : List (String × JSEntry V)) :
    (finalReducersOf reducers).map Prod.fst =
      (reducers.filter fun kv => kv.2.isCallable).map Prod.fst ∧
    combineWarnings true reducers = [] ∧
    combineWarnings false reducers =
      (reducers.filter fun kv => kv.2.isUndef).map
        (fun kv => "No reducer provided for key " ++ kv.1) :=
  ⟨finalReducersOf_keys reducers, rfl, combineWarnings_dev reducers⟩

/-! ## The store (`createStore`)

Listeners are identified by numbers. The two listener arrays of the
source (`currentListeners`, `nextListeners`) are mutable JS arrays that
may alias each other; they are modelled by a heap of arrays (`heap`)
addressed by indices, with `cur` and `nxt` the two array references.
`cur = nxt` is exactly the JS aliasing `nextListeners === currentListeners`. -/

/-- A listener callback, identified by a number. -/
abbrev ListenerId := Nat

/-- The listener bookkeeping of a store: a heap of arrays plus the
`currentListeners` and `nextListeners` references. -/
structure Listeners where
  heap : List (List ListenerId)
  cur : Nat
  nxt : Nat
  deriving DecidableEq, Repr

/-- Dereference an array reference (reading an absent cell gives `[]`;
reachable stores only ever use allocated references). -/
def getArr (ls : Listeners) (i : Nat) : List ListenerId := ls.heap.getD i []

/-- Overwrite the array a reference points at. -/
def setArr (ls : Listeners) (i : Nat) (a : List ListenerId) : Listeners :=
  { ls with heap := ls.heap.set i a }

/-- `ensureCanMutateNextListeners`: if `nextListeners` still aliases
`currentListeners`, make `nextListeners` a fresh copy (`slice()`). -/
def ensureCanMutateNextListeners (ls : Listeners) : Listeners :=
  if ls.nxt = ls.cur then
    { heap := ls.heap ++ [getArr ls ls.cur], cur := ls.cur, nxt := ls.heap.length }
  else ls

/-- The mutable closure state of one store. `flags` holds, with
multiplicity, the listener ids whose subscription closure still has
`isSubscribed = true`. -/
structure Store (S : Type) where
  currentState : Option S
  listeners : Listeners
  flags : List ListenerId
  isDispatching : Bool
  deriving Repr

/-- `getState`: rejected while a dispatch is in flight. -/
def getState {S : Type} (st : Store S) : Except ReduxError (Option S) :=
  if st.isDispatching then
    .error (.invalidOperationError
      "You may not call store.getState() while the reducer is executing.")
  else .ok st.currentState

/-- `subscribe`: rejected while dispatching; otherwise copy-on-write the
next-listener array and append the listener, marking it subscribed. -/
def subscribeOp {S : Type} (st : Store S) (id : ListenerId) :
    Except ReduxError Unit × Store S :=
  if st.isDispatching then
    (.error (.invalidOperationError
      "You may not call store.subscribe() while the reducer is executing."), st)
  else
    let ls := ensureCanMutateNextListeners st.listeners
    (.ok (), { st with
      listeners := setArr ls ls.nxt (getArr ls ls.nxt ++ [id]),
      flags := id :: st.flags })

/-- `nextListeners.splice(nextListeners.indexOf(listener), 1)`: remove the
first occurrence; when the listener is absent, `indexOf` gives `-1` and
`splice(-1, 1)` removes the last element. -/
def removeListener (l : List ListenerId) (id : ListenerId) : List ListenerId :=
  if id ∈ l then l.erase id else l.dropLast

/-- The `unsubscribe` closure for a subscribed listener: a no-op once
unsubscribed, rejected while dispatching, otherwise copy-on-write and
splice the listener out of the next-listener array. -/
def unsubscribeOp {S : Type} (st : Store S) (id : ListenerId) :
    Except ReduxError Unit × Store S :=
  if id ∈ st.flags then
    if st.isDispatching then
      (.error (.invalidOperationError
        "You may not unsubscribe from a store listener while the reducer is executing."), st)
    else
      let ls := ensureCanMutateNextListeners st.listeners
      (.ok (), { st with
        flags := st.flags.erase id,
        listeners := setArr ls ls.nxt (removeListener (getArr ls ls.nxt) id) })
  else (.ok (), st)

/-- What a listener body may do to the store when invoked: subscribe a
listener or call an unsubscribe closure. -/
inductive LCmd where
  | callSub (id : ListenerId)
  | callUnsub (id : ListenerId)
  deriving DecidableEq, Repr

/-- The body of each listener, as the sequence of store calls it makes. -/
abbrev ListenerEnv := ListenerId → List LCmd

def runCmd {S : Type} (st : Store S) : LCmd → Store S
  | .callSub id => (subscribeOp st id).2
  | .callUnsub id => (unsubscribeOp st id).2

def runCmds {S : Type} (cmds : List LCmd) (st : Store S) : Store S :=
  cmds.foldl runCmd st

/-- The notification loop of `dispatch`:
`for (var i = 0; i < listeners.length; i++) listeners[i]()`, where
`listeners` is the array reference `snapRef` captured at the start of the
pass. Each iteration re-reads the array through the reference, as the JS
loop does; the loop is fuelled with the array length at pass start (the
snapshot array is never mutated during a pass, which is proved below, so
the fuel is exact). Returns the invocation log and the final store. -/
def notifyFrom {S : Type} (env : ListenerEnv) (snapRef : Nat) :
    Nat → Nat → Store S → List ListenerId × Store S
  | 0, _, st => ([], st)
  | fuel + 1, i, st =>
    let arr := getArr st.listeners snapRef
    if i < arr.length then
      let id := arr.getD i 0
      let st1 := runCmds (env id) st
      let rest := notifyFrom env snapRef fuel (i + 1) st1
      (id :: rest.1, rest.2)
    else ([], st)

/-- The reducer of a store; `Except.error` models a thrown error. -/
abbrev StoreReducer (S : Type) := Option S → Action → Except ReduxError (Option S)

/-- A dispatched value as `dispatch` validates it: either not a plain
object, or a plain object whose `type` may be `undefined`. -/
inductive JSAction where
  | nonPlain
  | plain (type : Option String)
  deriving DecidableEq, Repr

/-- The outcome of one `dispatch` call: the returned value (or the thrown
error), the resulting store, and the listener invocation log. -/
structure DispatchOut (S : Type) where
  result : Except ReduxError JSAction
  store : Store S
  log : List ListenerId
  deriving Repr

/-- `dispatch`: validate the action, reject reentry, run the reducer under
`isDispatching` with an unconditional reset, commit the next state, then
`listeners = currentListeners = nextListeners` and invoke each listener. -/
def dispatch {S : Type} (r : StoreReducer S) (env : ListenerEnv)
    (st : Store S) (a : JSAction) : DispatchOut S :=
  match a with
  | .nonPlain => ⟨.error (.validationError "Actions must be plain objects."), st, []⟩
  | .plain none =>
    ⟨.error (.validationError "Actions may not have an undefined type property."), st, []⟩
  | .plain (some ty) =>
    if st.isDispatching then
      ⟨.error (.invalidOperationError "Reducers may not dispatch actions."), st, []⟩
    else
      let stD := { st with isDispatching := true }
      match r stD.currentState ⟨ty⟩ with
      | .error e => ⟨.error e, { stD with isDispatching := false }, []⟩
      | .ok next =>
        let st1 : Store S := { stD with currentState := next, isDispatching := false }
        let snapRef := st1.listeners.nxt
        let st2 : Store S :=
          { st1 with listeners := { st1.listeners with cur := st1.listeners.nxt } }
        let out := notifyFrom env snapRef (getArr st2.listeners snapRef).length 0 st2
        ⟨.ok (.plain (some ty)), out.2, out.1⟩

/-- `createStore` (no enhancer): set up the closure state and dispatch the
reserved init action before handing the store back. -/
def createStore {S : Type} (r : StoreReducer S) (preloadedState : Option S)
    (env : ListenerEnv) : Store S :=
  let st0 : Store S :=
    { currentState := preloadedState,
      listeners := { heap := [[]], cur := 0, nxt := 0 },
      flags := [], isDispatching := false }
  (dispatch r env st0 (.plain (some ActionTypes.INIT))).store

/-- A pure reducer (never throws), as `createStore` expects. -/
def pureReducer {S : Type} (R : Option S → Action → Option S) : StoreReducer S :=
  fun s a => .ok (R s a)

/-- C3: a store built from a pure reducer `R` with no preloaded state and
no enhancer synchronously dispatches one reserved init action during
construction, so `getState` immediately afterwards yields
`R undefined reservedInitAction`. -/
theorem createStore_initial_state {S : Type} (R : Option S → Action → Option S)
    (env : ListenerEnv) (h : (R none ⟨ActionTypes.INIT⟩).isSome) :
    getState (createStore (pureReducer R) none env) =
      .ok (R none ⟨ActionTypes.INIT⟩) := rfl

/-- Witness for C3: a counter reducer with default `0`. -/
theorem createStore_initial_state_witness :
    getState (createStore (S := Int)
      (pureReducer fun s _ => match s with | some v => some v | none => some 0)
      none (fun _ => [])) = .ok (some 0) :=
  createStore_initial_state
    (S := Int) (fun s _ => match s with | some v => some v | none => some 0)
    (fun _ => []) rfl

/-- C6: when the reducer throws on a valid action, `dispatch` propagates
that same error unmodified, the state is unchanged, no listener is
invoked, and `isDispatching` is reset to `false`, so a subsequent
`getState` (and, by the guard shape, a subsequent `dispatch`) is not
rejected as reentrant. -/
theorem dispatch_reducer_error_safe {S : Type} (r : StoreReducer S)
    (env : ListenerEnv) (st : Store S) (ty : String) (e : ReduxError)
    (hnd : st.isDispatching = false)
    (hr : r st.currentState ⟨ty⟩ = .error e) :
    dispatch r env st (.plain (some ty)) =
      ⟨.error e, { st with isDispatching := false }, []⟩ ∧
    getState { st with isDispatching := false } = .ok st.currentState := by
  constructor
  · simp [dispatch, hnd, hr]
  · simp [getState]

/-- Witness for C6: a reducer that always throws leaves a fresh store
observable and unchanged. -/
theorem dispatch_reducer_error_safe_witness :
    dispatch (S := Int) (fun _ _ => .error (.configurationError "boom"))
      (fun _ => [])
      { currentState := some 7,
        listeners := { heap := [[]], cur := 0, nxt := 0 },
        flags := [], isDispatching := false }
      (.plain (some "X")) =
      ⟨.error (.configurationError "boom"),
        { currentState := some 7,
          listeners := { heap := [[]], cur := 0, nxt := 0 },
          flags := [], isDispatching := false }, []⟩ ∧
    getState (S := Int)
      { currentState := some 7,
        listeners := { heap := [[]], cur := 0, nxt := 0 },
        flags := [], isDispatching := false } = .ok (some 7) :=
  dispatch_reducer_error_safe (S := Int)
    (fun _ _ => .error (.configurationError "boom")) (fun _ => [])
    { currentState := some 7,
      listeners := { heap := [[]], cur := 0, nxt := 0 },
      flags := [], isDispatching := false }
    "X" (.configurationError "boom") rfl rfl

/-- C4: while `isDispatching` is true (the reducer is executing), a nested
`dispatch` of a valid action, a `getState`, a `subscribe`, and a first
`unsubscribe` (one whose closure is still subscribed) each raise the
reentrancy error, and each leaves the store exactly as it was, so the
outer transition is not corrupted. -/
theorem reentrancy_guards {S : Type} (r : StoreReducer S) (env : ListenerEnv)
    (st : Store S) (ty : String) (id : ListenerId)
    (h : st.isDispatching = true) :
    dispatch r env st (.plain (some ty)) =
      ⟨.error (.invalidOperationError "Reducers may not dispatch actions."), st, []⟩ ∧
    getState st = .error (.invalidOperationError
      "You may not call store.getState() while the reducer is executing.") ∧
    subscribeOp st id = (.error (.invalidOperationError
      "You may not call store.subscribe() while the reducer is executing."), st) ∧
    (id ∈ st.flags → unsubscribeOp st id = (.error (.invalidOperationError
      "You may not unsubscribe from a store listener while the reducer is executing."), st)) := by
  refine ⟨?_, ?_, ?_, fun hid => ?_⟩
  · simp [dispatch, h]
  · simp [getState, h]
  · simp [subscribeOp, h]
  · simp [unsubscribeOp, h, hid]

/-- Witness for C4: a store frozen mid-dispatch rejects all four calls. -/
theorem reentrancy_guards_witness :
    dispatch (S := Int) (fun s _ => .ok s) (fun _ => [])
      { currentState := some 1,
        listeners := { heap := [[5]], cur := 0, nxt := 0 },
        flags := [5], isDispatching := true }
      (.plain (some "Y")) =
      ⟨.error (.invalidOperationError "Reducers may not dispatch actions."),
        { currentState := some 1,
          listeners := { heap := [[5]], cur := 0, nxt := 0 },
          flags := [5], isDispatching := true }, []⟩ ∧
    getState (S := Int)
      { currentState := some 1,
        listeners := { heap := [[5]], cur := 0, nxt := 0 },
        flags := [5], isDispatching := true } =
      .error (.invalidOperationError
        "You may not call store.getState() while the reducer is executing.") ∧
    subscribeOp (S := Int)
      { currentState := some 1,
        listeners := { heap := [[5]], cur := 0, nxt := 0 },
        flags := [5], isDispatching := true } 5 =
      (.error (.invalidOperationError
        "You may not call store.subscribe() while the reducer is executing."),
        { currentState := some 1,
          listeners := { heap := [[5]], cur := 0, nxt := 0 },
          flags := [5], isDispatching := true }) ∧
    (5 ∈ [(5 : ListenerId)] → unsubscribeOp (S := Int)
      { currentState := some 1,
        listeners := { heap := [[5]], cur := 0, nxt := 0 },
        flags := [5], isDispatching := true } 5 =
      (.error (.invalidOperationError
        "You may not unsubscribe from a store listener while the reducer is executing."),
        { currentState := some 1,
          listeners := { heap := [[5]], cur := 0, nxt := 0 },
          flags := [5], isDispatching := true })) :=
  reentrancy_guards (S := Int) (fun s _ => .ok s) (fun _ => [])
    { currentState := some 1,
      listeners := { heap := [[5]], cur := 0, nxt := 0 },
      flags := [5], isDispatching := true }
    "Y" 5 rfl

/-! ### The notification-pass invariant

During a notification pass the snapshot array captured at
`listeners = currentListeners = nextListeners` is never mutated: every
mutation of the next-listener array is preceded by
`ensureCanMutateNextListeners`, which clones the array whenever it still
aliases the snapshot. The lemmas below make that precise. -/

theorem getD_append_lt (l m : List (List ListenerId)) (i : Nat) (h : i < l.length) :
    (l ++ m).getD i [] = l.getD i [] := by
  simp [List.getD_eq_getElem?_getD, List.getElem?_append_left h]

theorem getD_append_len (l : List (List ListenerId)) (x : List ListenerId) :
    (l ++ [x]).getD l.length [] = x := by
  simp [List.getD_eq_getElem?_getD]

theorem getD_set_self (l : List (List ListenerId)) (i : Nat) (a : List ListenerId)
    (h : i < l.length) : (l.set i a).getD i [] = a := by
  simp [List.getD_eq_getElem?_getD, List.getElem?_set_self, h]

theorem getD_set_ne (l : List (List ListenerId)) (i j : Nat) (a : List ListenerId)
    (h : i ≠ j) : (l.set i a).getD j [] = l.getD j [] := by
  simp [List.getD_eq_getElem?_getD, List.getElem?_set_ne h]

theorem ensure_cur (ls : Listeners) :
    (ensureCanMutateNextListeners ls).cur = ls.cur := by
  unfold ensureCanMutateNextListeners; split <;> rfl

theorem ensure_len (ls : Listeners) :
    ls.heap.length ≤ (ensureCanMutateNextListeners ls).heap.length := by
  unfold ensureCanMutateNextListeners; split <;> simp

theorem ensure_getArr_lt (ls : Listeners) (i : Nat) (h : i < ls.heap.length) :
    getArr (ensureCanMutateNextListeners ls) i = getArr ls i := by
  unfold ensureCanMutateNextListeners; split
  · simp only [getArr]
    exact getD_append_lt _ _ _ h
  · rfl

theorem ensure_nxt_lt (ls : Listeners) (h : ls.nxt < ls.heap.length) :
    (ensureCanMutateNextListeners ls).nxt <
      (ensureCanMutateNextListeners ls).heap.length := by
  unfold ensureCanMutateNextListeners; split <;> simp [h]

theorem ensure_nxt_ne (ls : Listeners) (snapRef : Nat) (hc : ls.cur = snapRef)
    (hlt : snapRef < ls.heap.length) :
    (ensureCanMutateNextListeners ls).nxt ≠ snapRef := by
  unfold ensureCanMutateNextListeners; split
  · simp; omega
  · next h => rw [← hc]; exact fun he => h (by rw [he, hc])

theorem ensure_getArr_nxt (ls : Listeners) (h : ls.nxt < ls.heap.length) :
    getArr (ensureCanMutateNextListeners ls) (ensureCanMutateNextListeners ls).nxt
      = getArr ls ls.nxt := by
  unfold ensureCanMutateNextListeners; split
  · next heq => simp [getArr, getD_append_len, heq]
  · rfl

/-- The next-listener array of a store, read through its reference. -/
def arrN {S : Type} (st : Store S) : List ListenerId :=
  getArr st.listeners st.listeners.nxt

/-- Invariant holding throughout a notification pass over the snapshot
array `snapRef` whose contents at pass start were `snapshot`. -/
structure PassInv (snapRef : Nat) (snapshot : List ListenerId) {S : Type}
    (st : Store S) : Prop where
  cur_eq : st.listeners.cur = snapRef
  snap_lt : snapRef < st.listeners.heap.length
  nxt_lt : st.listeners.nxt < st.listeners.heap.length
  snap_eq : getArr st.listeners snapRef = snapshot
  count_le : ∀ id, st.flags.count id ≤ (arrN st).count id


theorem subscribeOp_store {S : Type} (st : Store S) (id : ListenerId)
    (hd : st.isDispatching = false) :
    (subscribeOp st id).2 =
      { st with
        listeners := setArr (ensureCanMutateNextListeners st.listeners)
          (ensureCanMutateNextListeners st.listeners).nxt
          (getArr (ensureCanMutateNextListeners st.listeners)
            (ensureCanMutateNextListeners st.listeners).nxt ++ [id]),
        flags := id :: st.flags } := by
  simp [subscribeOp, hd]

theorem subscribeOp_arrN {S : Type} {st : Store S} (id : ListenerId)
    (hd : st.isDispatching = false)
    (hnx : st.listeners.nxt < st.listeners.heap.length) :
    arrN (subscribeOp st id).2 = arrN st ++ [id] := by
  rw [subscribeOp_store st id hd]
  have hnl := ensure_nxt_lt st.listeners hnx
  have hnxtarr := ensure_getArr_nxt st.listeners hnx
  show getArr (setArr _ _ _) _ = _
  unfold setArr getArr
  rw [getD_set_self _ _ _ hnl]
  exact congrArg (fun t => t ++ [id]) hnxtarr

theorem subscribeOp_inv {S : Type} {snapRef : Nat} {snapshot : List ListenerId}
    {st : Store S} (id : ListenerId) (h : PassInv snapRef snapshot st) :
    PassInv snapRef snapshot (subscribeOp st id).2 := by
  by_cases hd : st.isDispatching
  · simpa [subscribeOp, hd] using h
  · have hd' : st.isDispatching = false := by simpa using hd
    have harr := subscribeOp_arrN id hd' h.nxt_lt
    rw [subscribeOp_store st id hd'] at harr ⊢
    have hne := ensure_nxt_ne st.listeners snapRef h.cur_eq h.snap_lt
    have hnl := ensure_nxt_lt st.listeners h.nxt_lt
    have hlen := ensure_len st.listeners
    have hsnap := ensure_getArr_lt st.listeners snapRef h.snap_lt
    refine ⟨?_, ?_, ?_, ?_, ?_⟩
    · simpa [setArr, ensure_cur] using h.cur_eq
    · simpa [setArr] using lt_of_lt_of_le h.snap_lt hlen
    · simpa [setArr] using hnl
    · show getArr (setArr _ _ _) snapRef = snapshot
      unfold setArr getArr
      rw [getD_set_ne _ _ _ _ hne]
      have h2 : getArr (ensureCanMutateNextListeners st.listeners) snapRef = snapshot :=
        hsnap.trans h.snap_eq
      exact h2
    · intro x
      have hc := h.count_le x
      rw [harr]
      show List.count x (id :: st.flags) ≤ List.count x (arrN st ++ [id])
      rw [List.count_cons, List.count_append]
      by_cases hxi : x = id
      · subst hxi
        simp
        omega
      · have hxi2 : ¬ (id = x) := fun hq => hxi hq.symm
        simp [hxi, hxi2]
        omega

theorem unsubscribeOp_store {S : Type} (st : Store S) (id : ListenerId)
    (hd : st.isDispatching = false) (hin : id ∈ st.flags) :
    (unsubscribeOp st id).2 =
      { st with
        flags := st.flags.erase id,
        listeners := setArr (ensureCanMutateNextListeners st.listeners)
          (ensureCanMutateNextListeners st.listeners).nxt
          (removeListener (getArr (ensureCanMutateNextListeners st.listeners)
            (ensureCanMutateNextListeners st.listeners).nxt) id) } := by
  simp [unsubscribeOp, hd, hin]

theorem unsubscribeOp_arrN {S : Type} {st : Store S} (id : ListenerId)
    (hd : st.isDispatching = false) (hin : id ∈ st.flags)
    (hnx : st.listeners.nxt < st.listeners.heap.length) :
    arrN (unsubscribeOp st id).2 = removeListener (arrN st) id := by
  rw [unsubscribeOp_store st id hd hin]
  have hnl := ensure_nxt_lt st.listeners hnx
  have hnxtarr := ensure_getArr_nxt st.listeners hnx
  show getArr (setArr _ _ _) _ = _
  unfold setArr getArr
  rw [getD_set_self _ _ _ hnl]
  exact congrArg (fun t => removeListener t id) hnxtarr

theorem unsubscribeOp_inv {S : Type} {snapRef : Nat} {snapshot : List ListenerId}
    {st : Store S} (id : ListenerId) (h : PassInv snapRef snapshot st) :
    PassInv snapRef snapshot (unsubscribeOp st id).2 := by
  by_cases hin : id ∈ st.flags
  · by_cases hd : st.isDispatching
    · simpa [unsubscribeOp, hd, hin] using h
    · have hd' : st.isDispatching = false := by simpa using hd
      have hmem : id ∈ arrN st := by
        have h1 : 0 < st.flags.count id := List.count_pos_iff.mpr hin
        have h2 := h.count_le id
        exact List.count_pos_iff.mp (lt_of_lt_of_le h1 h2)
      have harr := unsubscribeOp_arrN id hd' hin h.nxt_lt
      rw [unsubscribeOp_store st id hd' hin] at harr ⊢
      have hne := ensure_nxt_ne st.listeners snapRef h.cur_eq h.snap_lt
      have hnl := ensure_nxt_lt st.listeners h.nxt_lt
      have hlen := ensure_len st.listeners
      have hsnap := ensure_getArr_lt st.listeners snapRef h.snap_lt
      refine ⟨?_, ?_, ?_, ?_, ?_⟩
      · simpa [setArr, ensure_cur] using h.cur_eq
      · simpa [setArr] using lt_of_lt_of_le h.snap_lt hlen
      · simpa [setArr] using hnl
      · show getArr (setArr _ _ _) snapRef = snapshot
        unfold setArr getArr
        rw [getD_set_ne _ _ _ _ hne]
        exact hsnap.trans h.snap_eq
      · intro x
        have hc := h.count_le x
        rw [harr]
        show List.count x (st.flags.erase id) ≤ List.count x (removeListener (arrN st) id)
        rw [removeListener, if_pos hmem]
        by_cases hxi : x = id
        · subst hxi
          rw [List.count_erase_self, List.count_erase_self]
          omega
        · rw [List.count_erase_of_ne hxi, List.count_erase_of_ne hxi]
          exact hc
  · simpa [unsubscribeOp, hin] using h

theorem runCmd_inv {S : Type} {snapRef : Nat} {snapshot : List ListenerId}
    {st : Store S} (c : LCmd) (h : PassInv snapRef snapshot st) :
    PassInv snapRef snapshot (runCmd st c) := by
  cases c with
  | callSub id => exact subscribeOp_inv id h
  | callUnsub id => exact unsubscribeOp_inv id h

theorem runCmd_isDispatching {S : Type} (st : Store S) (c : LCmd) :
    (runCmd st c).isDispatching = st.isDispatching := by
  cases c with
  | callSub id =>
    by_cases hd : st.isDispatching <;> simp [runCmd, subscribeOp, hd]
  | callUnsub id =>
    by_cases hin : id ∈ st.flags
    · by_cases hd : st.isDispatching <;> simp [runCmd, unsubscribeOp, hd, hin]
    · simp [runCmd, unsubscribeOp, hin]

theorem runCmds_inv {S : Type} {snapRef : Nat} {snapshot : List ListenerId}
    (cmds : List LCmd) : ∀ {st : Store S}, PassInv snapRef snapshot st →
    PassInv snapRef snapshot (runCmds cmds st) := by
  induction cmds with
  | nil => intro st h; exact h
  | cons c rest ih =>
    intro st h
    show PassInv snapRef snapshot (runCmds rest (runCmd st c))
    exact ih (runCmd_inv c h)

theorem runCmds_isDispatching {S : Type} (cmds : List LCmd) :
    ∀ (st : Store S), (runCmds cmds st).isDispatching = st.isDispatching := by
  induction cmds with
  | nil => intro st; rfl
  | cons c rest ih =>
    intro st
    calc (runCmds (c :: rest) st).isDispatching
        = (runCmds rest (runCmd st c)).isDispatching := rfl
      _ = (runCmd st c).isDispatching := ih _
      _ = st.isDispatching := runCmd_isDispatching st c

theorem runCmd_mem {S : Type} {snapRef : Nat} {snapshot : List ListenerId}
    {st : Store S} {L2 : ListenerId} (c : LCmd) (h : PassInv snapRef snapshot st)
    (hm : L2 ∈ arrN st) (hne : c ≠ LCmd.callUnsub L2) :
    L2 ∈ arrN (runCmd st c) := by
  cases c with
  | callSub id =>
    by_cases hd : st.isDispatching
    · simpa [runCmd, subscribeOp, hd, arrN] using hm
    · have hd2 : st.isDispatching = false := by simpa using hd
      show L2 ∈ arrN (subscribeOp st id).2
      rw [subscribeOp_arrN id hd2 h.nxt_lt]
      exact List.mem_append_left _ hm
  | callUnsub id =>
    have hid : id ≠ L2 := fun he => hne (by rw [he])
    by_cases hin : id ∈ st.flags
    · by_cases hd : st.isDispatching
      · simpa [runCmd, unsubscribeOp, hd, hin, arrN] using hm
      · have hd2 : st.isDispatching = false := by simpa using hd
        have hmemid : id ∈ arrN st := by
          have h1 : 0 < st.flags.count id := List.count_pos_iff.mpr hin
          exact List.count_pos_iff.mp (lt_of_lt_of_le h1 (h.count_le id))
        show L2 ∈ arrN (unsubscribeOp st id).2
        rw [unsubscribeOp_arrN id hd2 hin h.nxt_lt, removeListener, if_pos hmemid]
        exact (List.mem_erase_of_ne (Ne.symm hid)).mpr hm
    · simpa [runCmd, unsubscribeOp, hin, arrN] using hm

theorem runCmd_sub_mem {S : Type} {snapRef : Nat} {snapshot : List ListenerId}
    {st : Store S} (L2 : ListenerId) (h : PassInv snapRef snapshot st)
    (hd : st.isDispatching = false) :
    L2 ∈ arrN (runCmd st (LCmd.callSub L2)) := by
  show L2 ∈ arrN (subscribeOp st L2).2
  rw [subscribeOp_arrN L2 hd h.nxt_lt]
  exact List.mem_append_right _ (List.mem_singleton.mpr rfl)

theorem runCmds_mem {S : Type} {snapRef : Nat} {snapshot : List ListenerId}
    {L2 : ListenerId} (cmds : List LCmd) :
    ∀ {st : Store S}, PassInv snapRef snapshot st → L2 ∈ arrN st →
      LCmd.callUnsub L2 ∉ cmds → L2 ∈ arrN (runCmds cmds st) := by
  induction cmds with
  | nil => intro st _ hm _; exact hm
  | cons c rest ih =>
    intro st h hm hnu
    show L2 ∈ arrN (runCmds rest (runCmd st c))
    refine ih (runCmd_inv c h) (runCmd_mem c h hm ?_) ?_
    · intro he; exact hnu (by rw [he]; exact List.mem_cons_self _ _)
    · intro hin; exact hnu (List.mem_cons_of_mem _ hin)

theorem runCmds_sub_mem {S : Type} {snapRef : Nat} {snapshot : List ListenerId}
    {L2 : ListenerId} (cmds : List LCmd) :
    ∀ {st : Store S}, PassInv snapRef snapshot st → st.isDispatching = false →
      LCmd.callSub L2 ∈ cmds → LCmd.callUnsub L2 ∉ cmds →
      L2 ∈ arrN (runCmds cmds st) := by
  induction cmds with
  | nil => intro st _ _ hs _; exact absurd hs (List.not_mem_nil _)
  | cons c rest ih =>
    intro st h hd hs hnu
    show L2 ∈ arrN (runCmds rest (runCmd st c))
    by_cases hc : c = LCmd.callSub L2
    · subst hc
      refine runCmds_mem rest (runCmd_inv _ h) (runCmd_sub_mem L2 h hd) ?_
      intro hin; exact hnu (List.mem_cons_of_mem _ hin)
    · have hs2 : LCmd.callSub L2 ∈ rest := by
        rcases List.mem_cons.mp hs with he | hr
        · exact absurd he.symm hc
        · exact hr
      refine ih (runCmd_inv c h) ?_ hs2 ?_
      · rw [runCmd_isDispatching]; exact hd
      · intro hin; exact hnu (List.mem_cons_of_mem _ hin)

theorem notifyFrom_spec {S : Type} (env : ListenerEnv) (snapRef : Nat)
    (snapshot : List ListenerId) :
    ∀ (fuel i : Nat) (st : Store S), PassInv snapRef snapshot st →
      fuel + i = snapshot.length →
      (notifyFrom env snapRef fuel i st).1 = snapshot.drop i ∧
      PassInv snapRef snapshot (notifyFrom env snapRef fuel i st).2 ∧
      (notifyFrom env snapRef fuel i st).2.isDispatching = st.isDispatching := by
  intro fuel
  induction fuel with
  | zero =>
    intro i st h hlen
    have hi : i = snapshot.length := by omega
    subst hi
    exact ⟨(List.drop_length snapshot).symm, h, rfl⟩
  | succ fuel ih =>
    intro i st h hlen
    have hlt : i < snapshot.length := by omega
    have harr : getArr st.listeners snapRef = snapshot := h.snap_eq
    have hrec := ih (i + 1) (runCmds (env (snapshot.getD i 0)) st)
      (runCmds_inv _ h) (by omega)
    obtain ⟨ha, hb, hc⟩ := hrec
    simp only [notifyFrom, harr, hlt, if_pos]
    refine ⟨?_, hb, ?_⟩
    · rw [ha]
      have hgd : snapshot.getD i 0 = snapshot[i] := by
        simp [List.getD_eq_getElem?_getD, List.getElem?_eq_getElem hlt]
      rw [hgd]
      exact (List.drop_eq_getElem_cons hlt).symm
    · rw [hc, runCmds_isDispatching]

theorem notifyFrom_subscribed {S : Type} (env : ListenerEnv) (snapRef : Nat)
    (snapshot : List ListenerId) (L2 : ListenerId)
    (hnu : ∀ j, j ∈ snapshot → LCmd.callUnsub L2 ∉ env j) :
    ∀ (fuel i : Nat) (st : Store S), PassInv snapRef snapshot st →
      st.isDispatching = false →
      fuel + i = snapshot.length →
      (L2 ∈ arrN st ∨ ∃ j, j ∈ snapshot.drop i ∧ LCmd.callSub L2 ∈ env j) →
      L2 ∈ arrN (notifyFrom env snapRef fuel i st).2 := by
  intro fuel
  induction fuel with
  | zero =>
    intro i st h hd hlen hdisj
    have hi : i = snapshot.length := by omega
    subst hi
    rcases hdisj with hm | ⟨j, hj, _⟩
    · exact hm
    · rw [List.drop_length] at hj
      exact absurd hj (List.not_mem_nil _)
  | succ fuel ih =>
    intro i st h hd hlen hdisj
    have hlt : i < snapshot.length := by omega
    have harr : getArr st.listeners snapRef = snapshot := h.snap_eq
    have hgd : snapshot.getD i 0 = snapshot[i] := by
      simp [List.getD_eq_getElem?_getD, List.getElem?_eq_getElem hlt]
    have hidmem : snapshot.getD i 0 ∈ snapshot := by
      rw [hgd]; exact List.getElem_mem hlt
    have hnui := hnu _ hidmem
    have hd1 : (runCmds (env (snapshot.getD i 0)) st).isDispatching = false := by
      rw [runCmds_isDispatching]; exact hd
    simp only [notifyFrom, harr, hlt, if_pos]
    refine ih (i + 1) (runCmds (env (snapshot.getD i 0)) st)
      (runCmds_inv _ h) hd1 (by omega) ?_
    rcases hdisj with hm | ⟨j, hj, hcs⟩
    · exact Or.inl (runCmds_mem _ h hm hnui)
    · rw [List.drop_eq_getElem_cons hlt] at hj
      rcases List.mem_cons.mp hj with he | hr
      · subst he
        rw [← hgd] at hcs
        exact Or.inl (runCmds_sub_mem _ h hd hcs hnui)
      · exact Or.inr ⟨j, hr, hcs⟩

theorem dispatch_ok_eq {S : Type} (r : StoreReducer S) (env : ListenerEnv)
    (st : Store S) (ty : String) (next : Option S)
    (hnd : st.isDispatching = false) (hr : r st.currentState ⟨ty⟩ = .ok next) :
    dispatch r env st (.plain (some ty)) =
      ⟨.ok (.plain (some ty)),
       (notifyFrom env st.listeners.nxt (arrN st).length 0
         { currentState := next,
           listeners := { heap := st.listeners.heap, cur := st.listeners.nxt,
                          nxt := st.listeners.nxt },
           flags := st.flags, isDispatching := false }).2,
       (notifyFrom env st.listeners.nxt (arrN st).length 0
         { currentState := next,
           listeners := { heap := st.listeners.heap, cur := st.listeners.nxt,
                          nxt := st.listeners.nxt },
           flags := st.flags, isDispatching := false }).1⟩ := by
  simp [dispatch, hnd, hr, arrN, getArr]

theorem dispatch_pass_inv {S : Type} (st : Store S) (next : Option S)
    (hwf : st.listeners.nxt < st.listeners.heap.length)
    (hcnt : ∀ id, st.flags.count id ≤ (arrN st).count id) :
    PassInv st.listeners.nxt (arrN st)
      { currentState := next,
        listeners := { heap := st.listeners.heap, cur := st.listeners.nxt,
                       nxt := st.listeners.nxt },
        flags := st.flags, isDispatching := false } :=
  ⟨rfl, hwf, hwf, rfl, hcnt⟩

theorem dispatch_ok_log {S : Type} (r : StoreReducer S) (env : ListenerEnv)
    (st : Store S) (ty : String) (next : Option S)
    (hnd : st.isDispatching = false) (hr : r st.currentState ⟨ty⟩ = .ok next) :
    (dispatch r env st (.plain (some ty))).log =
      (notifyFrom env st.listeners.nxt (arrN st).length 0
        { currentState := next,
          listeners := { heap := st.listeners.heap, cur := st.listeners.nxt,
                         nxt := st.listeners.nxt },
          flags := st.flags, isDispatching := false }).1 := by
  rw [dispatch_ok_eq r env st ty next hnd hr]

theorem dispatch_ok_store {S : Type} (r : StoreReducer S) (env : ListenerEnv)
    (st : Store S) (ty : String) (next : Option S)
    (hnd : st.isDispatching = false) (hr : r st.currentState ⟨ty⟩ = .ok next) :
    (dispatch r env st (.plain (some ty))).store =
      (notifyFrom env st.listeners.nxt (arrN st).length 0
        { currentState := next,
          listeners := { heap := st.listeners.heap, cur := st.listeners.nxt,
                         nxt := st.listeners.nxt },
          flags := st.flags, isDispatching := false }).2 := by
  rw [dispatch_ok_eq r env st ty next hnd hr]

/-- C5: in every dispatch whose reducer succeeds, the notification pass
invokes exactly the listeners of the snapshot taken at its start, in
order: the invocation log equals the snapshot, so a listener subscribed
during the pass (absent from the snapshot) is not invoked in that pass,
and a listener present once in the snapshot — for example one that
unsubscribes itself mid-pass — is invoked exactly once; moreover a
listener subscribed by a snapshot member during the pass (and never
unsubscribed) is invoked on the next dispatch. -/
theorem dispatch_notification_pass {S : Type} (r : StoreReducer S)
    (env : ListenerEnv) (st : Store S) (ty : String) (next : Option S)
    (hnd : st.isDispatching = false)
    (hwf : st.listeners.nxt < st.listeners.heap.length)
    (hcnt : ∀ id, st.flags.count id ≤ (arrN st).count id)
    (hr : r st.currentState ⟨ty⟩ = .ok next) :
    (dispatch r env st (.plain (some ty))).log = arrN st ∧
    (∀ L2, L2 ∉ arrN st → L2 ∉ (dispatch r env st (.plain (some ty))).log) ∧
    (∀ L1, (arrN st).count L1 = 1 →
      ((dispatch r env st (.plain (some ty))).log).count L1 = 1) ∧
    (∀ L2, (∃ j, j ∈ arrN st ∧ LCmd.callSub L2 ∈ env j) →
      (∀ j, j ∈ arrN st → LCmd.callUnsub L2 ∉ env j) →
      ∀ (r2 : StoreReducer S) (ty2 : String) (next2 : Option S),
        r2 (dispatch r env st (.plain (some ty))).store.currentState ⟨ty2⟩ = .ok next2 →
        L2 ∈ (dispatch r2 env (dispatch r env st (.plain (some ty))).store
          (.plain (some ty2))).log) := by
  rw [dispatch_ok_log r env st ty next hnd hr, dispatch_ok_store r env st ty next hnd hr]
  have hinv := dispatch_pass_inv st next hwf hcnt
  have hspec := notifyFrom_spec env st.listeners.nxt (arrN st) (arrN st).length 0 _
    hinv (by omega)
  obtain ⟨hlog, hinvO, hdO⟩ := hspec
  rw [List.drop_zero] at hlog
  refine ⟨hlog, ?_, ?_, ?_⟩
  · intro L2 hn
    rw [hlog]
    exact hn
  · intro L1 hc1
    rw [hlog]
    exact hc1
  · intro L2 hsub hnu r2 ty2 next2 hr2
    obtain ⟨j, hjmem, hjsub⟩ := hsub
    have hmem : L2 ∈ arrN (notifyFrom env st.listeners.nxt (arrN st).length 0
        { currentState := next,
          listeners := { heap := st.listeners.heap, cur := st.listeners.nxt,
                         nxt := st.listeners.nxt },
          flags := st.flags, isDispatching := false }).2 := by
      refine notifyFrom_subscribed env st.listeners.nxt (arrN st) L2 hnu
        (arrN st).length 0 _ hinv rfl (by omega) ?_
      exact Or.inr ⟨j, by rwa [List.drop_zero], hjsub⟩
    have hdO2 : (notifyFrom env st.listeners.nxt (arrN st).length 0
        { currentState := next,
          listeners := { heap := st.listeners.heap, cur := st.listeners.nxt,
                         nxt := st.listeners.nxt },
          flags := st.flags, isDispatching := false }).2.isDispatching = false := hdO
    rw [dispatch_ok_log r2 env _ ty2 next2 hdO2 hr2]
    have hinv2 := dispatch_pass_inv _ next2 hinvO.nxt_lt hinvO.count_le
    have hspec2 := notifyFrom_spec env _ _ _ 0 _ hinv2 (Nat.add_zero _)
    obtain ⟨hlog2, _, _⟩ := hspec2
    rw [List.drop_zero] at hlog2
    rw [hlog2]
    exact hmem

/-- Witness for C5: listener 1, during the pass of dispatching action A,
subscribes listener 2 and unsubscribes itself; listener 1 runs exactly
once in that pass, listener 2 does not run in it but runs during the next
dispatch of action B. -/
theorem dispatch_notification_pass_witness :
    (dispatch (S := Int) (fun s _ => .ok s)
      (fun i => if i = 1 then [LCmd.callSub 2, LCmd.callUnsub 1] else [])
      { currentState := some 0,
        listeners := { heap := [[1]], cur := 0, nxt := 0 },
        flags := [1], isDispatching := false }
      (.plain (some "A"))).log = [1] ∧
    2 ∈ (dispatch (S := Int) (fun s _ => .ok s)
      (fun i => if i = 1 then [LCmd.callSub 2, LCmd.callUnsub 1] else [])
      (dispatch (S := Int) (fun s _ => .ok s)
        (fun i => if i = 1 then [LCmd.callSub 2, LCmd.callUnsub 1] else [])
        { currentState := some 0,
          listeners := { heap := [[1]], cur := 0, nxt := 0 },
          flags := [1], isDispatching := false }
        (.plain (some "A"))).store
      (.plain (some "B"))).log := by
  have h := dispatch_notification_pass (S := Int) (fun s _ => .ok s)
    (fun i => if i = 1 then [LCmd.callSub 2, LCmd.callUnsub 1] else [])
    { currentState := some 0,
      listeners := { heap := [[1]], cur := 0, nxt := 0 },
      flags := [1], isDispatching := false }
    "A" (some 0) rfl (by decide) (fun id => le_refl _) rfl
  refine ⟨h.1, ?_⟩
  refine h.2.2.2 2 ⟨1, by simp [arrN, getArr], by decide⟩ ?_ _ "B" _ rfl
  intro j hj
  have hj1 : j = 1 := by simpa [arrN, getArr] using hj
  subst hj1
  decide

/-! ## The middleware pipeline (`applyMiddleware` / `compose`)

The dispatch functions are modelled with an explicit side-effect log so
that the visiting order of the middleware chain is observable: a dispatch
function takes the action and the log so far and returns the result and
the extended log. -/

/-- Modelled from the spec: `compose(...fns)` is right-to-left function
composition (the source file `compose.js` is not among the provided
sources); `compose()` is the identity function, `compose(f)` is `f`
itself, and `compose(f, g, h)(x)` is `f(g(h(x)))`. -/
def compose {α : Type} : List (α → α) → α → α
  | [] => fun x => x
  | [f] => f
  | f :: rest => fun x => f (compose rest x)

theorem compose_cons {α : Type} (f : α → α) (rest : List (α → α)) (x : α) :
    compose (f :: rest) x = f (compose rest x) := by
  cases rest <;> rfl

/-- A dispatch function over actions `α`, logging events `ε`. -/
abbrev DispatchFn (ε α : Type) := α → List ε → α × List ε

/-- The intercept API handed to every middleware. -/
structure MiddlewareAPI (γ ε α : Type) where
  getState : γ
  dispatch : DispatchFn ε α

/-- A middleware: takes the API, the next dispatch function, and yields
the wrapped dispatch function. -/
abbrev Middleware (γ ε α : Type) := MiddlewareAPI γ ε α → DispatchFn ε α → DispatchFn ε α

/-- The store record as `applyMiddleware` sees it; capabilities other
than `dispatch` are opaque values. -/
structure StoreRec (γ σ ρ ε α : Type) where
  getState : γ
  subscribe : σ
  replaceReducer : ρ
  dispatch : DispatchFn ε α

/-- The rebound `dispatch` of `applyMiddleware`:
`dispatch = compose(...chain)(store.dispatch)` with
`chain = middlewares.map(middleware => middleware(middlewareAPI))`. The
API dispatch `(action) => dispatch(action)` reads the mutable binding
that ends up holding the composed function; that mutation knot is
modelled by fuel-indexed unfolding — at depth `n + 1` the API carries the
full composed pipeline at depth `n` (depth `0` falls back to the raw
dispatch). -/
def composedDispatch {γ σ ρ ε α : Type} (middlewares : List (Middleware γ ε α))
    (store : StoreRec γ σ ρ ε α) : Nat → DispatchFn ε α
  | 0 => store.dispatch
  | n + 1 =>
    compose (middlewares.map fun middleware => middleware
      { getState := store.getState,
        dispatch := composedDispatch middlewares store n })
      store.dispatch

/-- The `middlewareAPI` record of the source: `getState` is the base
store's, `dispatch` the mutable current binding (here at depth `n`). -/
def middlewareAPI {γ σ ρ ε α : Type} (middlewares : List (Middleware γ ε α))
    (store : StoreRec γ σ ρ ε α) (n : Nat) : MiddlewareAPI γ ε α :=
  { getState := store.getState, dispatch := composedDispatch middlewares store n }

/-- `applyMiddleware`: return `{ ...store, dispatch }` with only the
dispatch rebound to the composed chain. -/
def applyMiddleware {γ σ ρ ε α : Type} (middlewares : List (Middleware γ ε α))
    (fuel : Nat) (store : StoreRec γ σ ρ ε α) : StoreRec γ σ ρ ε α :=
  { store with dispatch := composedDispatch middlewares store fuel }

/-- A middleware that records `tagIn` on the outbound path before calling
`next` and `tagOut` on the return path. -/
def logMid {γ ε α : Type} (tagIn tagOut : ε) : Middleware γ ε α :=
  fun api next a log =>
    let r := next a (log ++ [tagIn])
    (r.1, r.2 ++ [tagOut])

/-- A chain of logging middlewares visits the in-tags left to right on
the outbound path, then the inner dispatch, then the out-tags right to
left on the return path. -/
theorem logChain {γ ε α : Type} (api : MiddlewareAPI γ ε α) :
    ∀ (tags : List (ε × ε)) (next : DispatchFn ε α) (a : α) (log : List ε),
      compose (tags.map fun t => logMid (γ := γ) t.1 t.2 api) next a log =
        ((next a (log ++ tags.map Prod.fst)).1,
         (next a (log ++ tags.map Prod.fst)).2 ++ (tags.map Prod.snd).reverse) := by
  intro tags
  induction tags with
  | nil => intro next a log; simp [compose]
  | cons t rest ih =>
    intro next a log
    rw [List.map_cons, compose_cons]
    show (let r := compose (rest.map fun t => logMid t.1 t.2 api) next a (log ++ [t.1])
          (r.1, r.2 ++ [t.2])) = _
    rw [ih next a (log ++ [t.1])]
    simp

/-- C7: `applyMiddleware` composes the supplied middlewares around the raw
dispatch with the first supplied middleware outermost — one dispatched
action logs the in-tags in supplied order, then the raw dispatch, then
the out-tags in reverse order; every store capability except `dispatch`
is left identical to the base store; and the intercept API's `dispatch`
is the mutable current binding, i.e. the full composed pipeline (at the
previous unfolding depth), not the raw dispatch, so calling it re-enters
the whole chain. -/
theorem applyMiddleware_spec {γ σ ρ ε α : Type} (tags : List (ε × ε))
    (rawTag : ε) (store : StoreRec γ σ ρ ε α) (fuel : Nat) (a : α)
    (hdisp : store.dispatch = fun x log => (x, log ++ [rawTag])) :
    (∀ (mids : List (Middleware γ ε α)) (n : Nat),
      (applyMiddleware mids n store).getState = store.getState ∧
      (applyMiddleware mids n store).subscribe = store.subscribe ∧
      (applyMiddleware mids n store).replaceReducer = store.replaceReducer) ∧
    ((applyMiddleware (tags.map fun t => logMid t.1 t.2) (fuel + 1) store).dispatch a []
      = (a, tags.map Prod.fst ++ [rawTag] ++ (tags.map Prod.snd).reverse)) ∧
    (∀ (mids : List (Middleware γ ε α)) (n : Nat),
      middlewareAPI mids store (n + 1) =
        { getState := store.getState,
          dispatch := (applyMiddleware mids (n + 1) store).dispatch }) ∧
    ((middlewareAPI (tags.map fun t => logMid t.1 t.2) store (fuel + 1)).dispatch a []
      = (a, tags.map Prod.fst ++ [rawTag] ++ (tags.map Prod.snd).reverse)) := by
  have hrun : ∀ (api : MiddlewareAPI γ ε α),
      compose ((tags.map fun t => logMid (γ := γ) t.1 t.2).map fun m => m api)
        store.dispatch a [] =
        (a, tags.map Prod.fst ++ [rawTag] ++ (tags.map Prod.snd).reverse) := by
    intro api
    have h := logChain api tags store.dispatch a []
    rw [List.nil_append] at h
    have hmm : (tags.map fun t => logMid (γ := γ) t.1 t.2).map (fun m => m api)
        = tags.map fun t => logMid (γ := γ) t.1 t.2 api := by
      rw [List.map_map]; rfl
    rw [hmm, h, hdisp]
  refine ⟨fun mids n => ⟨rfl, rfl, rfl⟩, ?_, fun mids n => rfl, ?_⟩
  · show composedDispatch (tags.map fun t => logMid t.1 t.2) store (fuel + 1) a [] = _
    rw [composedDispatch]
    exact hrun _
  · show composedDispatch (tags.map fun t => logMid t.1 t.2) store (fuel + 1) a [] = _
    rw [composedDispatch]
    exact hrun _

/-- Witness for C7: two logging middlewares around a logging raw dispatch
produce the log in-1, in-2, raw, out-2, out-1 for one dispatched action. -/
theorem applyMiddleware_spec_witness :
    (applyMiddleware (γ := Unit) (σ := Unit) (ρ := Unit)
      ([(("in1", "out1")), (("in2", "out2"))].map fun t =>
        logMid (ε := String) (α := String) t.1 t.2) 1
      { getState := (), subscribe := (), replaceReducer := (),
        dispatch := fun x log => (x, log ++ ["raw"]) }).dispatch "A" []
      = ("A", ["in1", "in2", "raw", "out2", "out1"]) := by
  have h := applyMiddleware_spec (γ := Unit) (σ := Unit) (ρ := Unit)
    [("in1", "out1"), ("in2", "out2")] "raw"
    { getState := (), subscribe := (), replaceReducer := (),
      dispatch := fun x log => (x, log ++ ["raw"]) }
    0 "A" rfl
  simpa using h.2.1

/-- C8: `compose` is right-to-left composition — `compose()` is the
identity function, `compose(f)` is `f` itself unchanged, and
`compose(f, g, h)(x) = f(g(h(x)))` for arbitrary unary functions. -/
theorem compose_spec {α : Type} (f g h : α → α) (x : α) :
    compose ([] : List (α → α)) x = x ∧
    compose [f] = f ∧
    compose [f, g, h] x = f (g (h x)) :=
  ⟨rfl, rfl, rfl⟩

end Redux
